import Mathlib

/-!
Verification of the maxmux credential-substitution reverse proxy (main.go).

The development shallowly embeds the request-handling core of main.go:

* HTTP headers are modelled as Go models them in net/http: a map from
  canonical header names to lists of values, embedded here as an
  association list `List (String × List String)`.  `headerGet`,
  `headerSet` and `headerDel` mirror `Header.Get`, `Header.Set` and
  `Header.Del` from net/textproto (`Get` returns the first value of the
  entry, or `""` when the entry is missing or empty; `Set` replaces the
  whole entry by a single value; `Del` removes the entry).
* A request carries the fields of Go's `http.Request` used by main.go:
  method, URL (scheme/opaque/host/path/raw query), the `Host` field,
  the header map, and the body.
* `director` is the `proxy.Director` closure (main.go lines 90-113),
  `extractVirtualKey` and `serve` embed the `handler` closure
  (lines 120-162) with the transport abstracted as a function
  `Request → Option Response` (`none` models a transport error, which
  `httputil.ReverseProxy` routes to the `ErrorHandler` of lines 114-117).
  `serve` also returns the list of requests that were sent upstream, in
  order, so that "never contacts the upstream" and "is not retried" are
  expressible.
* `buildValidKeys` is the key-set construction loop of lines 71-74,
  `maskToken` is lines 42-47 (Go byte strings of ASCII tokens are
  modelled as `List Char`), `urlParse` models the fragment of Go's
  `net/url.Parse` relevant to the startup path, and `runMain` is the
  startup sequence of `main` after a successful YAML load
  (lines 33-38 defaults, then lines 67-79 checks, then listening).
-/

set_option autoImplicit false

namespace Maxmux

/-- Boolean substring test: does `needle` occur contiguously inside `hay`?
Used to express "the virtual key appears in ..." claims. -/
def substrOf (needle hay : String) : Bool :=
  decide (needle.data <:+: hay.data)

/-! ## Header model (net/http `Header`) -/

/-- Models Go `Header.Get` (net/textproto `MIMEHeader.Get`): the first
value of the entry for the given canonical key, or `""` when the entry is
missing or has no values. -/
def headerGet : List (String × List String) → String → String
  | [], _ => ""
  | (k, vs) :: t, key =>
    if k == key then
      match vs with
      | [] => ""
      | v :: _ => v
    else headerGet t key

/-- Models Go `Header.Del`: removes the entry for the given key. -/
def headerDel (h : List (String × List String)) (key : String) : List (String × List String) :=
  h.filter (fun p => p.1 != key)

/-- Models Go `Header.Set`: replaces the entry for the given key by a
single value. -/
def headerSet (h : List (String × List String)) (key v : String) : List (String × List String) :=
  headerDel h key ++ [(key, [v])]

/-- The ordered list of value-lists stored under a given key; used to state
frame conditions ("all other headers pass through unmodified"). -/
def headerValues (h : List (String × List String)) (key : String) : List (List String) :=
  (h.filter (fun p => p.1 == key)).map Prod.snd

/-- Whether the header map has an entry for the given key. -/
def headerHas (h : List (String × List String)) (key : String) : Bool :=
  h.any (fun p => p.1 == key)

/-! ## Requests and responses -/

/-- The fields of Go's `url.URL` used by main.go.  `opq` is the field Go
calls `Opaque`. -/
structure URL where
  scheme : String
  opq : String
  host : String
  path : String
  rawQuery : String
deriving DecidableEq

/-- The fields of Go's `http.Request` read or written by main.go. -/
structure Request where
  method : String
  url : URL
  host : String
  header : List (String × List String)
  body : String
deriving DecidableEq

/-- A response as far as the claims need it: status code and body. -/
structure Response where
  status : Nat
  body : String
deriving DecidableEq

/-! ## maskToken (main.go lines 42-47)

Go indexes the token by bytes; the tokens concerned are ASCII, so the
byte string is modelled as a `List Char`. -/

/-- Models `maskToken`: tokens of length at most 16 become `"***"`, longer
ones show the first 12 and the last 6 bytes around a `"..."` filler. -/
def maskToken (t : List Char) : List Char :=
  if t.length ≤ 16 then "***".data
  else t.take 12 ++ "...".data ++ t.drop (t.length - 6)

/-! ## The Director (main.go lines 90-113) -/

/-- The capability flag merged into `Anthropic-Beta` (main.go lines 102-106). -/
def betaFlag : String := "oauth-2025-04-20"

/-- Models the `proxy.Director` closure: rewrites destination scheme/host
and the `Host` field to the upstream's, overwrites `Authorization` with the
real token, removes `X-Api-Key`, merges `betaFlag` into `Anthropic-Beta`
and forces `Anthropic-Dangerous-Direct-Browser-Access: true`. -/
def director (upstream : URL) (oauthToken : String) (req : Request) : Request :=
  let h := headerSet req.header "Authorization" ("Bearer " ++ oauthToken)
  let h := headerDel h "X-Api-Key"
  let existing := headerGet h "Anthropic-Beta"
  let h := if existing != "" then headerSet h "Anthropic-Beta" (existing ++ "," ++ betaFlag)
           else headerSet h "Anthropic-Beta" betaFlag
  let h := headerSet h "Anthropic-Dangerous-Direct-Browser-Access" "true"
  { req with
      url := { req.url with scheme := upstream.scheme, host := upstream.host }
      host := upstream.host
      header := h }

/-! ## The handler (main.go lines 120-162) -/

/-- Models lines 124-127: the presented credential is the `Authorization`
value with the `"Bearer "` prefix removed (`strings.HasPrefix` and
`strings.TrimPrefix`, expressed on the character list), or `""` when the
header is missing or the prefix is absent. -/
def extractVirtualKey (req : Request) : String :=
  let auth := headerGet req.header "Authorization"
  if "Bearer ".data.isPrefixOf auth.data then String.mk (auth.data.drop 7) else ""

/-- Models the `validKeys` map construction loop of main.go lines 71-74
composed with a map lookup (missing entries read as `false`). -/
def buildValidKeys (keys : List String) : String → Bool :=
  keys.foldl (fun m k => fun s => if s == k then true else m s) (fun _ => false)

/-- Body written by the 401 path (main.go line 135). -/
def authErrorBody : String :=
  "\x7b\"error\":\x7b\"message\":\"invalid virtual key\",\"type\":\"authentication_error\"\x7d\x7d"

/-- Body written by the `ErrorHandler` 502 path (main.go line 116). -/
def proxyErrorBody : String :=
  "\x7b\"error\":\x7b\"message\":\"upstream error\",\"type\":\"proxy_error\"\x7d\x7d"

/-- Models one pass of the `handler` closure together with the reverse
proxy it drives.  The transport is abstracted as a function returning
`none` on a transport error (the case `httputil.ReverseProxy` hands to
`ErrorHandler`).  The second component lists the requests actually sent
upstream, in order: `[]` means the upstream was never contacted. -/
def serve (keys : List String) (upstream : URL) (oauthToken : String)
    (transport : Request → Option Response) (req : Request) :
    Response × List Request :=
  let virtualKey := extractVirtualKey req
  if !(buildValidKeys keys virtualKey) then
    (⟨401, authErrorBody⟩, [])
  else
    let out := director upstream oauthToken req
    match transport out with
    | some resp => (resp, [out])
    | none => (⟨502, proxyErrorBody⟩, [out])

/-! ## Startup (main.go lines 24-40 and 49-87, 164-168) -/

/-- The configuration of main.go lines 17-22 after YAML decoding. -/
structure Config where
  port : Nat
  upstream : String
  oauthToken : String
  virtualKeys : List String
deriving DecidableEq

/-- Models the defaulting in `loadConfig` (main.go lines 33-38). -/
def applyDefaults (cfg : Config) : Config :=
  let cfg := if cfg.port == 0 then { cfg with port := 4000 } else cfg
  if cfg.upstream == "" then { cfg with upstream := "https://api.anthropic.com" } else cfg

/-- Splits a string at the first occurrence of a separator character,
modelling Go `strings.Cut` (the separator is dropped; when it does not
occur the second component is `""`, as in the callers in `net/url`). -/
def cutChar (s : String) (sep : Char) : String × String :=
  let (a, b) := s.data.span (fun c => c != sep)
  match b with
  | [] => (⟨a⟩, "")
  | _ :: t => (⟨a⟩, ⟨t⟩)

/-- Models the scheme scanner `getScheme` of `net/url`: scans for a
`':'` preceded by a letter-led alphanumeric run; a leading `':'` is the
"missing protocol scheme" error; any other character means the URL has no
scheme. -/
def getSchemeLoop (orig : String) : List Char → List Char → Bool → Except String (String × String)
  | [], _, _ => .ok ("", orig)
  | c :: rest, acc, isFirst =>
    if ('a' ≤ c && c ≤ 'z') || ('A' ≤ c && c ≤ 'Z') then
      getSchemeLoop orig rest (acc ++ [c]) false
    else if ('0' ≤ c && c ≤ '9') || c == '+' || c == '-' || c == '.' then
      if isFirst then .ok ("", orig) else getSchemeLoop orig rest (acc ++ [c]) false
    else if c == ':' then
      if isFirst then .error "missing protocol scheme"
      else .ok (String.mk acc, String.mk rest)
    else .ok ("", orig)

/-- Entry point of the scheme scanner. -/
def getScheme (s : String) : Except String (String × String) :=
  getSchemeLoop s s.data [] true

/-- ASCII lower-casing of a single character, as `strings.ToLower` acts
on the scheme characters admitted by `getScheme`. -/
def charToLower (c : Char) : Char :=
  if 'A' ≤ c && c ≤ 'Z' then Char.ofNat (c.toNat + 32) else c

/-- Models the fragment of Go `net/url.Parse` exercised by the startup
path, for URLs free of percent-escapes, userinfo, IPv6 literals and
invalid host bytes: the fragment is cut at `'#'`, control bytes are
rejected, `"*"` parses to the path `"*"`, the scheme is scanned and
lowercased, the query is cut at `'?'`, a scheme-less first path segment
containing `':'` is rejected, an authority introduced by `"//"` becomes
the host (up to the next `'/'`), and anything else becomes the opaque
part (scheme present) or the path. -/
def urlParse (rawURL : String) : Except String URL :=
  let noFrag := (cutChar rawURL '#').1
  if noFrag.data.any (fun c => c.toNat < 32 || c.toNat == 127) then
    .error "invalid control character in URL"
  else if noFrag == "*" then .ok ⟨"", "", "", "*", ""⟩
  else
    match getScheme noFrag with
    | .error e => .error e
    | .ok (scheme0, rest0) =>
      let scheme := String.mk (scheme0.data.map charToLower)
      let (rest, rawQuery) := cutChar rest0 '?'
      if !(['/'].isPrefixOf rest.data) then
        if scheme != "" then .ok ⟨scheme, rest, "", "", rawQuery⟩
        else
          let segment := (cutChar rest '/').1
          if segment.data.contains ':' then
            .error "first path segment in URL cannot contain colon"
          else .ok ⟨"", "", "", rest, rawQuery⟩
      else
        if ['/', '/'].isPrefixOf rest.data && !(scheme == "" && ['/', '/', '/'].isPrefixOf rest.data) then
          let after := rest.data.drop 2
          let (authority, path) := after.span (fun c => c != '/')
          .ok ⟨scheme, "", String.mk authority, String.mk path, rawQuery⟩
        else .ok ⟨scheme, "", "", rest, rawQuery⟩

/-- Outcome of the startup sequence: either a fatal log (the process
exits without opening its listening port) or the server listening with
the resolved state. -/
inductive StartupResult where
  | fatal (msg : String)
  | listening (port : Nat) (upstream : URL) (oauthToken : String) (keys : List String)
deriving DecidableEq

/-- Whether startup ended in a fatal exit. -/
def StartupResult.isFatal : StartupResult → Bool
  | .fatal _ => true
  | .listening .. => false

/-- Models `main` after a successful YAML decode: `loadConfig` defaults,
then the `oauth_token` check (line 67), then `url.Parse` of the upstream
(line 76), then `ListenAndServe` (line 166).  A `fatal` result is reached
strictly before the listening socket is opened. -/
def runMain (cfg0 : Config) : StartupResult :=
  let cfg := applyDefaults cfg0
  if cfg.oauthToken == "" then .fatal "oauth_token is required in config"
  else
    match urlParse cfg.upstream with
    | .error _ => .fatal "invalid upstream URL"
    | .ok u => .listening cfg.port u cfg.oauthToken cfg.virtualKeys

/-! ## Occurrence of a string in a request -/

/-- Whether `s` occurs in a header name, or in a header value outside the
entry named `skip`.  With `skip := "Authorization"` this captures "the
inbound request carries `s` somewhere other than the Authorization
value". -/
def headerContainsOutside (h : List (String × List String)) (skip s : String) : Bool :=
  h.any (fun p => substrOf s p.1 || (p.1 != skip && p.2.any (fun v => substrOf s v)))

/-- Whether `s` occurs in any header name or value. -/
def headerContains (h : List (String × List String)) (s : String) : Bool :=
  h.any (fun p => substrOf s p.1 || p.2.any (fun v => substrOf s v))

/-- Whether `s` occurs anywhere in the request: method, URL components,
Host field, header names or values, or body. -/
def requestContains (r : Request) (s : String) : Bool :=
  substrOf s r.method || substrOf s r.url.scheme || substrOf s r.url.opq ||
  substrOf s r.url.host || substrOf s r.url.path || substrOf s r.url.rawQuery ||
  substrOf s r.host || headerContains r.header s || substrOf s r.body

/-- Whether `s` occurs anywhere in the request outside the value of the
`Authorization` header entry. -/
def requestContainsOutsideAuth (r : Request) (s : String) : Bool :=
  substrOf s r.method || substrOf s r.url.scheme || substrOf s r.url.opq ||
  substrOf s r.url.host || substrOf s r.url.path || substrOf s r.url.rawQuery ||
  substrOf s r.host || headerContainsOutside r.header "Authorization" s || substrOf s r.body

/-! ## Concrete fixtures used by witnesses and counterexamples -/

/-- The parsed default upstream. -/
def upstream0 : URL := ⟨"https", "", "api.anthropic.com", "", ""⟩

/-- A transport that always answers 200. -/
def transportOk : Request → Option Response := fun _ => some ⟨200, "ok"⟩

/-- A transport that always fails. -/
def transportFail : Request → Option Response := fun _ => none

/-- A request presenting no credential at all. -/
def reqNoAuth : Request :=
  ⟨"GET", ⟨"http", "", "localhost", "/v1/messages", ""⟩, "localhost", [], "hi"⟩

/-- A request presenting virtual key `k1` plus an unrelated header. -/
def reqK1 : Request :=
  ⟨"GET", ⟨"http", "", "localhost", "/v1/messages", ""⟩, "localhost",
    [("Authorization", ["Bearer k1"]), ("X-Test", ["v"])], "hi"⟩

/-- A request presenting virtual key `k1` and echoing it in another header. -/
def reqEcho : Request :=
  ⟨"POST", ⟨"http", "", "localhost", "/v1/messages", ""⟩, "localhost",
    [("Authorization", ["Bearer k1"]), ("X-Echo", ["k1"])], "hello"⟩

/-- A request presenting virtual key `k1` with an `Anthropic-Beta` flag
and an `X-Api-Key` header. -/
def reqBetaFoo : Request :=
  ⟨"GET", ⟨"http", "", "localhost", "/v1/messages", ""⟩, "localhost",
    [("Authorization", ["Bearer k1"]), ("Anthropic-Beta", ["foo"]),
     ("X-Api-Key", ["old-key"])], "hi"⟩

/-! ## Header lemmas -/

theorem headerGet_not_has (h : List (String × List String)) (m : String)
    (hh : headerHas h m = false) : headerGet h m = "" := by
  induction h with
  | nil => rfl
  | cons p t ih =>
    obtain ⟨n, vs⟩ := p
    simp only [headerHas, List.any_cons, Bool.or_eq_false_iff] at hh
    simp only [headerGet, hh.1]
    simp only [headerHas] at ih
    exact ih hh.2

theorem headerGet_append (l₁ l₂ : List (String × List String)) (m : String) :
    headerGet (l₁ ++ l₂) m =
      if headerHas l₁ m then headerGet l₁ m else headerGet l₂ m := by
  induction l₁ with
  | nil => simp [headerHas, headerGet]
  | cons p t ih =>
    obtain ⟨n, vs⟩ := p
    by_cases hnm : n = m
    · subst hnm
      simp [headerHas, headerGet, List.cons_append]
    · have hb : (n == m) = false := by simp [hnm]
      simp only [List.cons_append, headerGet, headerHas, List.any_cons, hb, Bool.false_or]
      simpa [headerHas] using ih

theorem headerHas_del_ne (h : List (String × List String)) (k m : String) (hne : m ≠ k) :
    headerHas (headerDel h k) m = headerHas h m := by
  induction h with
  | nil => rfl
  | cons p t ih =>
    obtain ⟨n, vs⟩ := p
    by_cases hnk : n = k
    · subst hnk
      have hm : (n == m) = false := by simp [Ne.symm hne]
      simp [headerDel, headerHas, List.filter_cons, hm] at ih ⊢
      exact ih
    · simp [headerDel, headerHas, List.filter_cons, hnk] at ih ⊢
      rw [ih]

theorem headerHas_del_self (h : List (String × List String)) (k : String) :
    headerHas (headerDel h k) k = false := by
  simp only [headerHas, headerDel]
  rw [List.any_eq_false]
  intro p hp
  have h2 := (List.mem_filter.mp hp).2
  simp only [bne_iff_ne, ne_eq] at h2
  simp [h2]

theorem headerHas_set_ne (h : List (String × List String)) (k v m : String) (hne : m ≠ k) :
    headerHas (headerSet h k v) m = headerHas h m := by
  have hb : (k == m) = false := by simp [Ne.symm hne]
  simp only [headerSet, headerHas, List.any_append, List.any_cons, List.any_nil, hb,
    Bool.false_or, Bool.or_false]
  simpa [headerHas] using headerHas_del_ne h k m hne

theorem headerGet_del_ne (h : List (String × List String)) (k m : String) (hne : m ≠ k) :
    headerGet (headerDel h k) m = headerGet h m := by
  induction h with
  | nil => rfl
  | cons p t ih =>
    obtain ⟨n, vs⟩ := p
    by_cases hnk : n = k
    · subst hnk
      have hm : (n == m) = false := by simp [Ne.symm hne]
      simp only [headerDel, List.filter_cons, bne_self_eq_false, reduceIte, headerGet, hm]
      simpa [headerDel] using ih
    · have hp : ((n, vs).1 != k) = true := by simp [hnk]
      simp only [headerDel, List.filter_cons, hp, if_true, headerGet]
      by_cases hnm : n = m
      · simp [hnm]
      · have hm : (n == m) = false := by simp [hnm]
        simp only [hm, if_false]
        simpa [headerDel] using ih

theorem headerGet_set_self (h : List (String × List String)) (k v : String) :
    headerGet (headerSet h k v) k = v := by
  simp [headerSet, headerGet_append, headerHas_del_self, headerGet]

theorem headerGet_set_ne (h : List (String × List String)) (k v m : String) (hne : m ≠ k) :
    headerGet (headerSet h k v) m = headerGet h m := by
  have hb : (k == m) = false := by simp [Ne.symm hne]
  rw [headerSet, headerGet_append, headerHas_del_ne h k m hne]
  by_cases hh : headerHas h m = true
  · simp [hh, headerGet_del_ne h k m hne]
  · have hh' : headerHas h m = false := by simpa using hh
    simp [hh', headerGet, hb, headerGet_not_has h m hh']

theorem headerValues_del_ne (h : List (String × List String)) (k m : String) (hne : m ≠ k) :
    headerValues (headerDel h k) m = headerValues h m := by
  unfold headerValues headerDel
  rw [List.filter_filter]
  refine congrArg _ (List.filter_congr ?_)
  intro p _
  by_cases hpm : p.1 = m
  · have hk : (p.1 != k) = true := by simp [hpm, hne]
    simp [hpm, hk, hne]
  · simp [hpm]

theorem headerValues_set_ne (h : List (String × List String)) (k v m : String) (hne : m ≠ k) :
    headerValues (headerSet h k v) m = headerValues h m := by
  have hb : (k == m) = false := by simp [Ne.symm hne]
  simp only [headerSet, headerValues, List.filter_append, List.map_append]
  rw [show List.filter (fun p => p.1 == m) [(k, [v])] = [] by simp [List.filter, hb]]
  simp only [List.map_nil, List.append_nil]
  have := headerValues_del_ne h k m hne
  simpa [headerValues] using this

/-! ## Key-set lemmas -/

theorem buildValidKeys_foldl (keys : List String) (m : String → Bool) (s : String) :
    (keys.foldl (fun m k => fun s => if s == k then true else m s) m) s
      = (m s || keys.contains s) := by
  induction keys generalizing m with
  | nil => simp
  | cons k ks ih =>
    simp only [List.foldl_cons, ih]
    by_cases hsk : s = k
    · simp [hsk]
    · have hb : (s == k) = false := by simp [hsk]
      simp [hb, List.contains, List.elem]

theorem buildValidKeys_eq_contains (keys : List String) (s : String) :
    buildValidKeys keys s = keys.contains s := by
  unfold buildValidKeys
  rw [buildValidKeys_foldl]
  simp

theorem contains_eq_of_perm (l₁ l₂ : List String) (hp : l₁.Perm l₂) (s : String) :
    l₁.contains s = l₂.contains s := by
  rw [Bool.eq_iff_iff]
  simp only [List.contains, List.elem_iff]
  exact hp.mem_iff (a := s)

/-! ## substrOf lemmas -/

theorem substrOf_iff (a b : String) : substrOf a b = true ↔ a.data <:+: b.data := by
  simp [substrOf]

theorem substrOf_append_right (a b : String) : substrOf b (a ++ b) = true := by
  rw [substrOf_iff, String.data_append]
  exact ⟨a.data, [], by simp⟩

theorem substrOf_self (a : String) : substrOf a a = true := by
  rw [substrOf_iff]

/-! ## serve path lemmas -/

theorem serve_reject (keys : List String) (upstream : URL) (oauthToken : String)
    (transport : Request → Option Response) (req : Request)
    (hk : keys.contains (extractVirtualKey req) = false) :
    serve keys upstream oauthToken transport req = (⟨401, authErrorBody⟩, []) := by
  have hb : buildValidKeys keys (extractVirtualKey req) = false := by
    rw [buildValidKeys_eq_contains]; exact hk
  simp [serve, hb]

theorem serve_forward (keys : List String) (upstream : URL) (oauthToken : String)
    (transport : Request → Option Response) (req : Request)
    (hk : keys.contains (extractVirtualKey req) = true) :
    serve keys upstream oauthToken transport req =
      match transport (director upstream oauthToken req) with
      | some resp => (resp, [director upstream oauthToken req])
      | none => (⟨502, proxyErrorBody⟩, [director upstream oauthToken req]) := by
  have hb : buildValidKeys keys (extractVirtualKey req) = true := by
    rw [buildValidKeys_eq_contains]; exact hk
  simp [serve, hb]

/-! ## Director projection lemmas -/

theorem director_method (upstream : URL) (oauthToken : String) (req : Request) :
    (director upstream oauthToken req).method = req.method := rfl

theorem director_url_scheme (upstream : URL) (oauthToken : String) (req : Request) :
    (director upstream oauthToken req).url.scheme = upstream.scheme := rfl

theorem director_url_opq (upstream : URL) (oauthToken : String) (req : Request) :
    (director upstream oauthToken req).url.opq = req.url.opq := rfl

theorem director_url_host (upstream : URL) (oauthToken : String) (req : Request) :
    (director upstream oauthToken req).url.host = upstream.host := rfl

theorem director_url_path (upstream : URL) (oauthToken : String) (req : Request) :
    (director upstream oauthToken req).url.path = req.url.path := rfl

theorem director_url_rawQuery (upstream : URL) (oauthToken : String) (req : Request) :
    (director upstream oauthToken req).url.rawQuery = req.url.rawQuery := rfl

theorem director_host (upstream : URL) (oauthToken : String) (req : Request) :
    (director upstream oauthToken req).host = upstream.host := rfl

theorem director_body (upstream : URL) (oauthToken : String) (req : Request) :
    (director upstream oauthToken req).body = req.body := rfl

/-! ## Claims -/

/-- Claim C2: for every inbound request whose presented credential (the
`Authorization` value after removing the `Bearer ` prefix, or `""` when
the header is missing or lacks that prefix) is not a member of the
configured virtual-key set — for any configured set, including the empty
one — the gateway responds 401 with the fixed authentication-error body
and never contacts the upstream. -/
theorem c2_invalid_key_rejected (keys : List String) (upstream : URL) (oauthToken : String)
    (transport : Request → Option Response) (req : Request)
    (hk : keys.contains (extractVirtualKey req) = false) :
    serve keys upstream oauthToken transport req = (⟨401, authErrorBody⟩, []) :=
  serve_reject keys upstream oauthToken transport req hk

/-- Witness for C2 at a concrete input: a request with no credential
against the key set `["k1"]` is rejected without contacting upstream. -/
theorem c2_invalid_key_rejected_witness :
    (["k1"] : List String).contains (extractVirtualKey reqNoAuth) = false
  ∧ serve ["k1"] upstream0 "tok" transportOk reqNoAuth = (⟨401, authErrorBody⟩, []) :=
  ⟨by decide, c2_invalid_key_rejected ["k1"] upstream0 "tok" transportOk reqNoAuth (by decide)⟩

/-- Claim C5: for every request on which the upstream transport fails
before a response is obtained, the caller receives exactly status 502
with the fixed proxy-error body, and the request is sent upstream exactly
once (no retry). -/
theorem c5_upstream_error_502 (keys : List String) (upstream : URL) (oauthToken : String)
    (transport : Request → Option Response) (req : Request)
    (hk : keys.contains (extractVirtualKey req) = true)
    (ht : transport (director upstream oauthToken req) = none) :
    serve keys upstream oauthToken transport req
      = (⟨502, proxyErrorBody⟩, [director upstream oauthToken req]) := by
  rw [serve_forward keys upstream oauthToken transport req hk, ht]

/-- Witness for C5 at a concrete input: key `k1` with a failing transport
yields 502 and a single upstream attempt. -/
theorem c5_upstream_error_502_witness :
    (["k1"] : List String).contains (extractVirtualKey reqK1) = true
  ∧ transportFail (director upstream0 "tok" reqK1) = none
  ∧ serve ["k1"] upstream0 "tok" transportFail reqK1
      = (⟨502, proxyErrorBody⟩, [director upstream0 "tok" reqK1]) :=
  ⟨by decide, rfl,
    c5_upstream_error_502 ["k1"] upstream0 "tok" transportFail reqK1 (by decide) rfl⟩

/-- Claim C10: for every request forwarded upstream, the outbound `Host`
(the Go `Request.Host` field, which is the HTTP Host header sent
upstream) equals the configured upstream's host, so the client-supplied
Host value never reaches the upstream. -/
theorem c10_host_rewritten (keys : List String) (upstream : URL) (oauthToken : String)
    (transport : Request → Option Response) (req : Request) (out : Request)
    (hout : out ∈ (serve keys upstream oauthToken transport req).2) :
    out.host = upstream.host := by
  by_cases hk : keys.contains (extractVirtualKey req) = true
  · rw [serve_forward keys upstream oauthToken transport req hk] at hout
    cases htr : transport (director upstream oauthToken req) with
    | some resp =>
      rw [htr] at hout
      simp only [List.mem_singleton] at hout
      rw [hout]
      exact director_host upstream oauthToken req
    | none =>
      rw [htr] at hout
      simp only [List.mem_singleton] at hout
      rw [hout]
      exact director_host upstream oauthToken req
  · have hk' : keys.contains (extractVirtualKey req) = false := by
      simpa using hk
    rw [serve_reject keys upstream oauthToken transport req hk'] at hout
    simp at hout

/-- Witness for C10 at a concrete input: the outbound request produced
for `reqK1` carries the upstream host. -/
theorem c10_host_rewritten_witness :
    (director upstream0 "tok" reqK1).host = upstream0.host :=
  c10_host_rewritten ["k1"] upstream0 "tok" transportOk reqK1
    (director upstream0 "tok" reqK1) (by decide)

/-- Congruence of the whole request outcome in the key list, up to
membership. -/
theorem serve_congr (l₁ l₂ : List String) (upstream : URL) (oauthToken : String)
    (transport : Request → Option Response) (req : Request)
    (hc : l₁.contains (extractVirtualKey req) = l₂.contains (extractVirtualKey req)) :
    serve l₁ upstream oauthToken transport req = serve l₂ upstream oauthToken transport req := by
  by_cases h1 : l₁.contains (extractVirtualKey req) = true
  · rw [serve_forward l₁ upstream oauthToken transport req h1,
      serve_forward l₂ upstream oauthToken transport req (hc ▸ h1)]
  · have h1' : l₁.contains (extractVirtualKey req) = false := by simpa using h1
    rw [serve_reject l₁ upstream oauthToken transport req h1',
      serve_reject l₂ upstream oauthToken transport req (hc ▸ h1')]

/-- Duplicating the head of the key list does not change membership. -/
theorem contains_dup (k : String) (keys : List String) (s : String) :
    (k :: k :: keys).contains s = (k :: keys).contains s := by
  by_cases h : s = k
  · simp [List.contains, List.elem, h]
  · have hb : (s == k) = false := by simp [h]
    simp [List.contains, List.elem, hb]

/-- Claim C8: the authentication outcome depends only on set membership in
the configured virtual-key list: key lists with the same membership
behave identically, duplicating an entry or reordering the list yields
the same accept/reject result, and with an empty list every request is
rejected. -/
theorem c8_membership_only (l₁ l₂ keys : List String) (k : String) (upstream : URL)
    (oauthToken : String) (transport : Request → Option Response) (req : Request) :
    ((∀ s, l₁.contains s = l₂.contains s) →
      serve l₁ upstream oauthToken transport req = serve l₂ upstream oauthToken transport req)
  ∧ (serve (k :: k :: keys) upstream oauthToken transport req
      = serve (k :: keys) upstream oauthToken transport req)
  ∧ (l₁.Perm l₂ →
      serve l₁ upstream oauthToken transport req = serve l₂ upstream oauthToken transport req)
  ∧ serve [] upstream oauthToken transport req = (⟨401, authErrorBody⟩, []) := by
  refine ⟨?_, ?_, ?_, ?_⟩
  · intro hmem
    exact serve_congr l₁ l₂ upstream oauthToken transport req (hmem _)
  · exact serve_congr _ _ upstream oauthToken transport req (contains_dup k keys _)
  · intro hp
    exact serve_congr l₁ l₂ upstream oauthToken transport req
      (contains_eq_of_perm l₁ l₂ hp _)
  · exact serve_reject [] upstream oauthToken transport req (by simp)

/-- Witness for C8 at concrete inputs: duplication, a transposition, and
the empty key list. -/
theorem c8_membership_only_witness :
    serve ["a"] upstream0 "tok" transportOk reqNoAuth
      = serve ["a", "a"] upstream0 "tok" transportOk reqNoAuth
  ∧ serve ["a", "b"] upstream0 "tok" transportOk reqNoAuth
      = serve ["b", "a"] upstream0 "tok" transportOk reqNoAuth
  ∧ serve [] upstream0 "tok" transportOk reqNoAuth = (⟨401, authErrorBody⟩, []) := by
  refine ⟨(c8_membership_only ["a"] ["a", "a"] [] "x" upstream0 "tok" transportOk reqNoAuth).1 ?_,
    (c8_membership_only ["a", "b"] ["b", "a"] [] "x" upstream0 "tok" transportOk reqNoAuth).2.2.1
      (List.Perm.swap "b" "a" []),
    (c8_membership_only [] [] [] "x" upstream0 "tok" transportOk reqNoAuth).2.2.2⟩
  intro s
  by_cases h : s = "a"
  · simp [List.contains, List.elem, h]
  · have hb : (s == "a") = false := by simp [h]
    simp [List.contains, List.elem, hb]

/-! ## The Anthropic-Beta merge -/

theorem substrOf_append_left (a b : String) : substrOf a (a ++ b) = true := by
  rw [substrOf_iff, String.data_append]
  exact ⟨[], b.data, by simp⟩

theorem substrOf_nil_left (b : String) : substrOf "" b = true := by
  rw [substrOf_iff]
  exact ⟨[], b.data, by simp⟩

/-- The outbound `Anthropic-Beta` value computed by the Director, as a
function of the inbound one (main.go lines 102-106). -/
theorem director_get_beta (upstream : URL) (oauthToken : String) (req : Request) :
    headerGet (director upstream oauthToken req).header "Anthropic-Beta"
      = (if headerGet req.header "Anthropic-Beta" != "" then
           headerGet req.header "Anthropic-Beta" ++ "," ++ betaFlag
         else betaFlag) := by
  have he : headerGet (headerDel (headerSet req.header "Authorization"
        ("Bearer " ++ oauthToken)) "X-Api-Key") "Anthropic-Beta"
      = headerGet req.header "Anthropic-Beta" := by
    rw [headerGet_del_ne _ _ _ (by decide), headerGet_set_ne _ _ _ _ (by decide)]
  simp only [director]
  rw [headerGet_set_ne _ _ _ _ (by decide), he]
  by_cases hc : (headerGet req.header "Anthropic-Beta" != "") = true
  · rw [if_pos hc, if_pos hc, headerGet_set_self]
  · rw [if_neg hc, if_neg hc, headerGet_set_self]

/-- Claim C4: for every request, the outbound `Anthropic-Beta` header is
the merge of the inbound value with the fixed flag: when the inbound
request carries no such value the outbound value is exactly
`oauth-2025-04-20`; when the inbound value is a non-empty `v` the
outbound value is `v ++ "," ++ "oauth-2025-04-20"`; in every case the
flag is present and the whole inbound value survives verbatim. -/
theorem c4_beta_merge (upstream : URL) (oauthToken : String) (req : Request) :
    (headerGet req.header "Anthropic-Beta" = "" →
      headerGet (director upstream oauthToken req).header "Anthropic-Beta" = betaFlag)
  ∧ (headerGet req.header "Anthropic-Beta" ≠ "" →
      headerGet (director upstream oauthToken req).header "Anthropic-Beta"
        = headerGet req.header "Anthropic-Beta" ++ "," ++ betaFlag)
  ∧ substrOf betaFlag
      (headerGet (director upstream oauthToken req).header "Anthropic-Beta") = true
  ∧ substrOf (headerGet req.header "Anthropic-Beta")
      (headerGet (director upstream oauthToken req).header "Anthropic-Beta") = true := by
  refine ⟨?_, ?_, ?_, ?_⟩
  · intro h
    rw [director_get_beta, h]
    simp
  · intro h
    have hb : (headerGet req.header "Anthropic-Beta" != "") = true := by
      simpa [bne_iff_ne] using h
    rw [director_get_beta, if_pos hb]
  · rw [director_get_beta]
    split
    · exact substrOf_append_right _ _
    · exact substrOf_self _
  · by_cases h : headerGet req.header "Anthropic-Beta" = ""
    · rw [h]
      exact substrOf_nil_left _
    · have hb : (headerGet req.header "Anthropic-Beta" != "") = true := by
        simpa [bne_iff_ne] using h
      rw [director_get_beta, if_pos hb, String.append_assoc]
      exact substrOf_append_left _ _

/-- Witness for C4 at concrete inputs: inbound flag `foo` is preserved
and the fixed flag appended; with no inbound flag the outbound value is
exactly the fixed flag. -/
theorem c4_beta_merge_witness :
    headerGet (director upstream0 "tok" reqBetaFoo).header "Anthropic-Beta"
      = "foo" ++ "," ++ betaFlag
  ∧ headerGet (director upstream0 "tok" reqNoAuth).header "Anthropic-Beta" = betaFlag := by
  constructor
  · have h := (c4_beta_merge upstream0 "tok" reqBetaFoo).2.1 (by decide)
    rw [h]
    decide
  · exact (c4_beta_merge upstream0 "tok" reqNoAuth).1 (by decide)

/-- Claim C6: for every request, the rewrite phase removes any
`X-Api-Key` header, changes only the destination scheme and host (the
URL scheme/host and the `Host` field, set to the upstream's) plus the
headers `Authorization`, `Anthropic-Beta` and
`Anthropic-Dangerous-Direct-Browser-Access`, and leaves the method, path,
query string, body, and every other header unchanged. -/
theorem c6_rewrite_frame (upstream : URL) (oauthToken : String) (req : Request) :
    headerHas (director upstream oauthToken req).header "X-Api-Key" = false
  ∧ (director upstream oauthToken req).method = req.method
  ∧ (director upstream oauthToken req).url.path = req.url.path
  ∧ (director upstream oauthToken req).url.rawQuery = req.url.rawQuery
  ∧ (director upstream oauthToken req).body = req.body
  ∧ (director upstream oauthToken req).url.scheme = upstream.scheme
  ∧ (director upstream oauthToken req).url.host = upstream.host
  ∧ (director upstream oauthToken req).host = upstream.host
  ∧ ∀ n : String, n ∉ (["Authorization", "X-Api-Key", "Anthropic-Beta",
        "Anthropic-Dangerous-Direct-Browser-Access"] : List String) →
      headerValues (director upstream oauthToken req).header n = headerValues req.header n := by
  refine ⟨?_, rfl, rfl, rfl, rfl, rfl, rfl, rfl, ?_⟩
  · simp only [director]
    rw [headerHas_set_ne _ _ _ _ (by decide)]
    split <;> rw [headerHas_set_ne _ _ _ _ (by decide)] <;> exact headerHas_del_self _ _
  · intro n hn
    simp only [List.mem_cons, List.not_mem_nil, or_false, not_or] at hn
    obtain ⟨hA, hX, hB, hD⟩ := hn
    simp only [director]
    rw [headerValues_set_ne _ _ _ _ hD]
    split <;>
      rw [headerValues_set_ne _ _ _ _ hB, headerValues_del_ne _ _ _ hX,
        headerValues_set_ne _ _ _ _ hA]

/-- Witness for C6 at a concrete input: `X-Api-Key` is stripped from
`reqBetaFoo` and its unrelated header `X-Test` on `reqK1` passes through
untouched. -/
theorem c6_rewrite_frame_witness :
    headerHas (director upstream0 "tok" reqBetaFoo).header "X-Api-Key" = false
  ∧ headerValues (director upstream0 "tok" reqK1).header "X-Test"
      = headerValues reqK1.header "X-Test" :=
  ⟨(c6_rewrite_frame upstream0 "tok" reqBetaFoo).1,
    (c6_rewrite_frame upstream0 "tok" reqK1).2.2.2.2.2.2.2.2 "X-Test" (by decide)⟩

/-- Counterexample to claim C3 as stated: when the empty string itself is
a configured virtual key, a request with no `Authorization` header is
accepted and forwarded (status 200, one upstream contact) rather than
rejected with 401, so the rejection does not hold "regardless of which
keys are configured". -/
theorem c3_counterexample :
    extractVirtualKey reqNoAuth = ""
  ∧ (serve [""] upstream0 "tok" transportOk reqNoAuth).1.status = 200
  ∧ (serve [""] upstream0 "tok" transportOk reqNoAuth).2.length = 1 :=
  ⟨by decide, by decide, by decide⟩

/-- Claim C3 as amended: for every inbound request whose `Authorization`
header is missing or does not start with the exact prefix `Bearer `, the
presented credential is the empty string, and provided the empty string
is not itself among the configured virtual keys the request is rejected
with 401 and the upstream is never contacted. -/
theorem c3_missing_prefix_rejected (keys : List String) (upstream : URL)
    (oauthToken : String) (transport : Request → Option Response) (req : Request)
    (hpre : "Bearer ".data.isPrefixOf (headerGet req.header "Authorization").data = false)
    (hempty : keys.contains "" = false) :
    extractVirtualKey req = ""
  ∧ serve keys upstream oauthToken transport req = (⟨401, authErrorBody⟩, []) := by
  have hvk : extractVirtualKey req = "" := by
    simp [extractVirtualKey, hpre]
  exact ⟨hvk, serve_reject keys upstream oauthToken transport req (by rw [hvk]; exact hempty)⟩

/-- Witness for the amended C3 at a concrete input. -/
theorem c3_missing_prefix_rejected_witness :
    extractVirtualKey reqNoAuth = ""
  ∧ serve ["k1"] upstream0 "tok" transportOk reqNoAuth = (⟨401, authErrorBody⟩, []) :=
  c3_missing_prefix_rejected ["k1"] upstream0 "tok" transportOk reqNoAuth
    (by decide) (by decide)

/-! ## Startup claims -/

theorem applyDefaults_oauthToken (cfg : Config) :
    (applyDefaults cfg).oauthToken = cfg.oauthToken := by
  unfold applyDefaults
  split <;> dsimp only <;> split <;> rfl

/-- Counterexample to claim C7 as stated: the upstream string
`api.anthropic.com` does not parse as an absolute URL (Go `url.Parse`
accepts it as a bare path, with empty scheme and empty host), yet
startup succeeds and the server reaches the listening state instead of
failing. -/
theorem c7_counterexample :
    (urlParse "api.anthropic.com").toOption = some ⟨"", "", "", "api.anthropic.com", ""⟩
  ∧ runMain ⟨4000, "api.anthropic.com", "tok", []⟩
      = .listening 4000 ⟨"", "", "", "api.anthropic.com", ""⟩ "tok" [] :=
  ⟨by decide, by decide⟩

/-- Claim C7 as amended: startup is fatal — the process exits without
opening its listening port — exactly when the configured shared
credential is empty or Go's `url.Parse` rejects the (defaulted) upstream
string; an upstream that parses as a relative URL without scheme or host
is accepted and the server starts. -/
theorem c7_startup_validation (cfg : Config) :
    (runMain cfg).isFatal
      = (cfg.oauthToken == "" || !(urlParse (applyDefaults cfg).upstream).isOk) := by
  simp only [runMain]
  by_cases ht : cfg.oauthToken = ""
  · have h1 : ((applyDefaults cfg).oauthToken == "") = true := by
      rw [applyDefaults_oauthToken]
      simp [ht]
    simp [h1, ht, StartupResult.isFatal]
  · have h1 : ((applyDefaults cfg).oauthToken == "") = false := by
      rw [applyDefaults_oauthToken]
      simp [ht]
    have h2 : (cfg.oauthToken == "") = false := by simp [ht]
    rw [if_neg (by simp [h1]), h2, Bool.false_or]
    cases hu : urlParse (applyDefaults cfg).upstream with
    | error e => simp [StartupResult.isFatal, Except.isOk, Except.toBool]
    | ok u => simp [StartupResult.isFatal, Except.isOk, Except.toBool]

/-! ## maskToken claims -/

/-- Counterexample to claim C9 as stated: the logged form of the
17-character token `aaaaaaaaaaaabbbbb` determines the token completely —
no other token of the same length produces the same log output, because
the 12-character prefix and 6-character suffix shown overlap and cover
the whole token.  Its middle is therefore recoverable from the logged
output. -/
theorem c9_counterexample :
    ¬ ∃ t' : List Char, t' ≠ "aaaaaaaaaaaabbbbb".data
      ∧ t'.length = "aaaaaaaaaaaabbbbb".data.length
      ∧ maskToken t' = maskToken "aaaaaaaaaaaabbbbb".data := by
  rintro ⟨t', hne, hlen, hmask⟩
  have hlen17 : t'.length = 17 := by
    rw [hlen]; decide
  have hval : maskToken "aaaaaaaaaaaabbbbb".data
      = "aaaaaaaaaaaa".data ++ "...".data ++ "abbbbb".data := by decide
  rw [hval] at hmask
  simp only [maskToken, hlen17] at hmask
  rw [if_neg (by norm_num)] at hmask
  rw [show (17 : Nat) - 6 = 11 from by norm_num] at hmask
  have hlen1 : (t'.take 12 ++ "...".data).length
      = ("aaaaaaaaaaaa".data ++ "...".data).length := by
    simp [List.length_take, hlen17]
  obtain ⟨hpre, hsuf⟩ := List.append_inj hmask hlen1
  obtain ⟨htake, -⟩ := List.append_inj hpre (by simp [List.length_take, hlen17])
  have htake11 : t'.take 11 = "aaaaaaaaaaa".data := by
    have h12 : (t'.take 12).take 11 = t'.take 11 := by
      rw [List.take_take]; norm_num
    rw [← h12, htake]; decide
  apply hne
  rw [← List.take_append_drop 11 t', htake11, hsuf]
  decide

/-- Claim C9 as amended: tokens of at most 16 characters are replaced
entirely by `***`; for tokens of at least 19 characters the logged form
hides at least one middle character — some distinct token of the same
length logs identically — and in general the logged form of any token
longer than 16 characters depends only on its length, first 12 and last
6 characters.  (Tokens of exactly 17 or 18 characters fall outside the
masking guarantee: the shown prefix and suffix cover them completely,
as the counterexample shows.) -/
theorem c9_mask_hides_middle :
    (∀ t : List Char, t.length ≤ 16 → maskToken t = "***".data)
  ∧ (∀ t : List Char, 19 ≤ t.length →
      ∃ t' : List Char, t' ≠ t ∧ t'.length = t.length ∧ maskToken t' = maskToken t)
  ∧ (∀ t t' : List Char, 17 ≤ t.length → t'.length = t.length →
      t'.take 12 = t.take 12 → t'.drop (t'.length - 6) = t.drop (t.length - 6) →
      maskToken t' = maskToken t) := by
  refine ⟨?_, ?_, ?_⟩
  · intro t h
    simp [maskToken, h]
  · intro t hlen
    obtain ⟨r0, rest, hrest⟩ : ∃ r0 rest, t.drop 12 = r0 :: rest := by
      have hd : (t.drop 12).length = t.length - 12 := List.length_drop 12 t
      cases hcase : t.drop 12 with
      | nil => rw [hcase] at hd; simp at hd; omega
      | cons a l => exact ⟨a, l, rfl⟩
    have hta : t = t.take 12 ++ r0 :: rest := by
      conv_lhs => rw [← List.take_append_drop 12 t, hrest]
    have hlen_take : (t.take 12).length = 12 := by
      rw [List.length_take]; omega
    have hlen_rest : rest.length = t.length - 13 := by
      have hd := List.length_drop 12 t
      rw [hrest] at hd
      simp only [List.length_cons] at hd
      omega
    refine ⟨t.take 12 ++ (if r0 = 'a' then 'b' else 'a') :: rest, ?_, ?_, ?_⟩
    · intro he
      have h2 := he.trans hta
      have h3 := List.append_cancel_left h2
      have h4 : (if r0 = 'a' then 'b' else 'a') = r0 := by
        injection h3
      by_cases hr : r0 = 'a'
      · rw [if_pos hr, hr] at h4
        exact absurd h4 (by decide)
      · rw [if_neg hr] at h4
        exact hr h4.symm
    · simp only [List.length_append, List.length_cons, hlen_take, hlen_rest]
      omega
    · have hlen' : (t.take 12 ++ (if r0 = 'a' then 'b' else 'a') :: rest).length = t.length := by
        simp only [List.length_append, List.length_cons, hlen_take, hlen_rest]
        omega
      have hdropt : t.drop (t.length - 6) = rest.drop (t.length - 19) := by
        have hdd := List.drop_drop (t.length - 18) 12 t
        rw [hrest, show t.length - 18 = (t.length - 19) + 1 from by omega,
          List.drop_succ_cons] at hdd
        rw [show (12 : Nat) + (t.length - 19 + 1) = t.length - 6 from by omega] at hdd
        exact hdd.symm
      simp only [maskToken, hlen']
      rw [if_neg (show ¬ t.length ≤ 16 from by omega)]
      rw [List.take_append_eq_append_take, hlen_take,
        show (12 : Nat) - 12 = 0 from by norm_num, List.take_zero, List.append_nil,
        List.take_take, show (12 : Nat) ⊓ 12 = 12 from by norm_num]
      rw [List.drop_append_eq_append_drop, hlen_take,
        List.drop_eq_nil_of_le (by rw [hlen_take]; omega), List.nil_append,
        show t.length - 6 - 12 = (t.length - 19) + 1 from by omega,
        List.drop_succ_cons, hdropt]
      rw [if_neg (show ¬ t.length ≤ 16 from by omega)]
  · intro t t' h17 hlen htake hdrop
    rw [hlen] at hdrop
    simp only [maskToken, hlen]
    rw [htake, hdrop]

/-- Witness for the amended C9 at concrete inputs: a short token is fully
masked; a 19-character token has a log-indistinguishable same-length
twin; two 19-character tokens differing only in the middle log
identically. -/
theorem c9_mask_hides_middle_witness :
    maskToken "short".data = "***".data
  ∧ (∃ t' : List Char, t' ≠ "aaaaaaaaaaaaXbbbbbb".data
      ∧ t'.length = "aaaaaaaaaaaaXbbbbbb".data.length
      ∧ maskToken t' = maskToken "aaaaaaaaaaaaXbbbbbb".data)
  ∧ maskToken "aaaaaaaaaaaaYbbbbbb".data = maskToken "aaaaaaaaaaaaXbbbbbb".data :=
  ⟨c9_mask_hides_middle.1 "short".data (by decide),
    c9_mask_hides_middle.2.1 "aaaaaaaaaaaaXbbbbbb".data (by decide),
    c9_mask_hides_middle.2.2 "aaaaaaaaaaaaXbbbbbb".data "aaaaaaaaaaaaYbbbbbb".data
      (by decide) (by decide) (by decide) (by decide)⟩

/-! ## Occurrence of the virtual key in the outbound request -/

theorem headerContains_filter (h : List (String × List String))
    (q : String × List String → Bool) (s : String)
    (hc : headerContains h s = false) : headerContains (h.filter q) s = false := by
  rw [headerContains, List.any_eq_false] at hc ⊢
  intro p hp
  exact hc p (List.mem_filter.mp hp).1

theorem headerContains_del (h : List (String × List String)) (k s : String)
    (hc : headerContains h s = false) : headerContains (headerDel h k) s = false :=
  headerContains_filter h _ s hc

theorem headerContains_del_skip (h : List (String × List String)) (skip s : String)
    (hc : headerContainsOutside h skip s = false) :
    headerContains (headerDel h skip) s = false := by
  rw [headerContains, List.any_eq_false]
  intro p hp
  obtain ⟨hmem, hpk⟩ := List.mem_filter.mp hp
  rw [headerContainsOutside, List.any_eq_false] at hc
  have h1 : (substrOf s p.1 || (p.1 != skip && p.2.any (fun v => substrOf s v))) = false := by
    have := hc p hmem
    simpa using this
  rw [Bool.or_eq_false_iff] at h1
  have h2 := h1.2
  rw [hpk, Bool.true_and] at h2
  simp [h1.1, h2]

theorem headerContains_set_false (h : List (String × List String)) (k v s : String)
    (h1 : headerContains (headerDel h k) s = false)
    (h2 : substrOf s k = false) (h3 : substrOf s v = false) :
    headerContains (headerSet h k v) s = false := by
  rw [headerSet, headerContains, List.any_append]
  rw [headerContains] at h1
  simp [h1, h2, h3]

/-- A string that occurs nowhere in the inbound request outside the
`Authorization` value, in none of the header values the Director writes,
and in none of the header names it touches, occurs in no header of the
outbound request. -/
theorem headerContains_director (upstream : URL) (oauthToken : String) (req : Request)
    (s : String)
    (hin : headerContainsOutside req.header "Authorization" s = false)
    (hbearer : substrOf s ("Bearer " ++ oauthToken) = false)
    (hbeta : substrOf s
      (headerGet (director upstream oauthToken req).header "Anthropic-Beta") = false)
    (htrue : substrOf s "true" = false)
    (hnA : substrOf s "Authorization" = false)
    (hnB : substrOf s "Anthropic-Beta" = false)
    (hnD : substrOf s "Anthropic-Dangerous-Direct-Browser-Access" = false) :
    headerContains (director upstream oauthToken req).header s = false := by
  have he : headerGet (headerDel (headerSet req.header "Authorization"
        ("Bearer " ++ oauthToken)) "X-Api-Key") "Anthropic-Beta"
      = headerGet req.header "Anthropic-Beta" := by
    rw [headerGet_del_ne _ _ _ (by decide), headerGet_set_ne _ _ _ _ (by decide)]
  rw [director_get_beta] at hbeta
  have hcA : headerContains (headerDel req.header "Authorization") s = false :=
    headerContains_del_skip req.header "Authorization" s hin
  have hc1 : headerContains
      (headerSet req.header "Authorization" ("Bearer " ++ oauthToken)) s = false :=
    headerContains_set_false _ _ _ _ hcA hnA hbearer
  have hc2 : headerContains (headerDel (headerSet req.header "Authorization"
      ("Bearer " ++ oauthToken)) "X-Api-Key") s = false :=
    headerContains_del _ _ _ hc1
  simp only [director]
  rw [he]
  by_cases hcond : (headerGet req.header "Anthropic-Beta" != "") = true
  · rw [if_pos hcond]
    rw [if_pos hcond] at hbeta
    exact headerContains_set_false _ _ _ _
      (headerContains_del _ _ _
        (headerContains_set_false _ _ _ _ (headerContains_del _ _ _ hc2) hnB hbeta))
      hnD htrue
  · rw [if_neg hcond]
    rw [if_neg hcond] at hbeta
    exact headerContains_set_false _ _ _ _
      (headerContains_del _ _ _
        (headerContains_set_false _ _ _ _ (headerContains_del _ _ _ hc2) hnB hbeta))
      hnD htrue

/-- Counterexample to claim C1 as stated: with configured key `k1` and a
request that authenticates with `k1` but also echoes it in an `X-Echo`
header, the outbound request still contains the virtual key — the
rewrite only replaces the `Authorization` header, everything else passes
through. -/
theorem c1_counterexample :
    (["k1"] : List String).contains (extractVirtualKey reqEcho) = true
  ∧ requestContains (director upstream0 "tok" reqEcho) "k1" = true :=
  ⟨by decide, by decide⟩

/-- Claim C1 as amended: for every authenticated request, the outbound
`Authorization` header equals exactly `Bearer ` followed by the shared
credential; and provided the virtual key occurs nowhere in the inbound
request outside the `Authorization` value, is not a substring of any
value the rewrite writes (`Bearer <credential>`, the merged
`Anthropic-Beta` value, `true`), of the header names the rewrite
touches, or of the upstream scheme and host, the virtual key appears
nowhere in the outbound request. -/
theorem c1_credential_swap (keys : List String) (upstream : URL) (oauthToken : String)
    (req : Request) (vk : String)
    (hvk : vk = extractVirtualKey req)
    (hauth : keys.contains vk = true)
    (hin : requestContainsOutsideAuth req vk = false)
    (hbearer : substrOf vk ("Bearer " ++ oauthToken) = false)
    (hbeta : substrOf vk
      (headerGet (director upstream oauthToken req).header "Anthropic-Beta") = false)
    (htrue : substrOf vk "true" = false)
    (hnA : substrOf vk "Authorization" = false)
    (hnB : substrOf vk "Anthropic-Beta" = false)
    (hnD : substrOf vk "Anthropic-Dangerous-Direct-Browser-Access" = false)
    (hupS : substrOf vk upstream.scheme = false)
    (hupH : substrOf vk upstream.host = false) :
    headerGet (director upstream oauthToken req).header "Authorization"
      = "Bearer " ++ oauthToken
  ∧ requestContains (director upstream oauthToken req) vk = false := by
  constructor
  · simp only [director]
    rw [headerGet_set_ne _ _ _ _ (by decide)]
    split <;>
      rw [headerGet_set_ne _ _ _ _ (by decide), headerGet_del_ne _ _ _ (by decide),
        headerGet_set_self]
  · have hh := headerContains_director upstream oauthToken req vk
      (by rw [requestContainsOutsideAuth] at hin
          simp only [Bool.or_eq_false_iff] at hin
          exact hin.1.2)
      hbearer hbeta htrue hnA hnB hnD
    rw [requestContainsOutsideAuth] at hin
    simp only [Bool.or_eq_false_iff] at hin
    obtain ⟨⟨⟨⟨⟨⟨⟨⟨hmethod, hscheme⟩, hopq⟩, hhost⟩, hpath⟩, hquery⟩, hreqhost⟩, hhdr⟩,
      hbody⟩ := hin
    rw [requestContains, director_method, director_url_scheme, director_url_opq,
      director_url_host, director_url_path, director_url_rawQuery, director_host,
      director_body, hh, hmethod, hopq, hpath, hquery, hbody, hupS, hupH]
    rfl

/-- Witness for the amended C1 at a concrete input: request `reqK1`
authenticates with `k1`, the outbound `Authorization` header is exactly
`Bearer tok`, and `k1` appears nowhere in the outbound request. -/
theorem c1_credential_swap_witness :
    headerGet (director upstream0 "tok" reqK1).header "Authorization" = "Bearer " ++ "tok"
  ∧ requestContains (director upstream0 "tok" reqK1) "k1" = false :=
  c1_credential_swap ["k1"] upstream0 "tok" reqK1 "k1" (by decide) (by decide) (by decide)
    (by decide) (by decide) (by decide) (by decide) (by decide) (by decide) (by decide)
    (by decide)

end Maxmux
